import Mathlib

/-!
Shallow embedding of src/app.py (Nigeria Incident Analysis Dashboard).

The program loads a dataframe, applies four optional equality filters
(state, year, month, incident type) sequentially, computes scalar metrics
(row count, death sum, mean duration) and three group-by projections
(death sums by state sorted descending, row counts by incident type,
row counts by month reindexed onto the full-data month order), and builds
the four dropdown option lists from the full dataframe.

Dataframes are modelled as lists of records.  Cells that pandas would hold
as NaN (missing) are modelled with Option: a missing cell is none.  The
columns the app touches are States, Year, Month_Name, Incident_Type,
Identifier, Number of deaths, Duration_days; per the data model the last
three are always present (Identifier a per-row key, deaths a non-negative
integer, duration a non-negative possibly fractional number).
-/

/-- One row of the dataframe. -/
structure Record where
  states : Option String
  year : Option Int
  monthName : Option String
  incidentType : Option String
  identifier : String
  deaths : Nat
  durationDays : Rat
deriving DecidableEq

/-- The four sidebar selections; none models the sentinel "All"
(the code tests selection != "All" before filtering). -/
structure Selection where
  state : Option String
  year : Option Int
  month : Option String
  incident : Option String
deriving DecidableEq

/-- The selection with all four dropdowns left at "All". -/
def allSelection : Selection := ⟨none, none, none, none⟩

/-- One conditional filter step: code pattern
if sel != "All": df = df[df[col] == sel].
A pandas comparison of a NaN cell with a value is False, which the model
matches since (none == some v) is false. -/
def applyFilter {β : Type} [DecidableEq β] (v : Option β) (fld : Record → Option β)
    (l : List Record) : List Record :=
  match v with
  | none => l
  | some x => l.filter (fun r => fld r == some x)

/-- The state filter step (line 47). -/
def applyState (v : Option String) : List Record → List Record :=
  applyFilter v (fun r => r.states)

/-- The year filter step (line 50). -/
def applyYear (v : Option Int) : List Record → List Record :=
  applyFilter v (fun r => r.year)

/-- The month filter step (line 53). -/
def applyMonth (v : Option String) : List Record → List Record :=
  applyFilter v (fun r => r.monthName)

/-- The incident-type filter step (line 56). -/
def applyIncident (v : Option String) : List Record → List Record :=
  applyFilter v (fun r => r.incidentType)

/-- filtered_df: the four filter steps applied in source order
(state, then year, then month, then incident type). -/
def filtered_df (sel : Selection) (df : List Record) : List Record :=
  applyIncident sel.incident (applyMonth sel.month (applyYear sel.year (applyState sel.state df)))

/-- total_incidents = filtered_df.shape[0]. -/
def total_incidents (l : List Record) : Nat := l.length

/-- total_deaths = filtered_df["Number of deaths"].sum(); the sum of an
empty pandas column is 0. -/
def total_deaths (l : List Record) : Nat := (l.map (fun r => r.deaths)).sum

/-- avg_duration = filtered_df["Duration_days"].mean(); the mean of an
empty pandas column is NaN, modelled as none. -/
def avg_duration (l : List Record) : Option Rat :=
  if l.isEmpty then none
  else some ((l.map (fun r => r.durationDays)).sum / (l.length : Rat))

section FilterLemmas

lemma applyFilter_sublist {β : Type} [DecidableEq β] (v : Option β)
    (fld : Record → Option β) (l : List Record) : (applyFilter v fld l).Sublist l := by
  cases v with
  | none => exact List.Sublist.refl l
  | some x => exact List.filter_sublist l

lemma filter_swap {α : Type} (p q : α → Bool) (l : List α) :
    (l.filter p).filter q = (l.filter q).filter p := by
  rw [List.filter_filter, List.filter_filter]
  exact List.filter_congr (fun a _ => Bool.and_comm (q a) (p a))

lemma applyFilter_comm {β γ : Type} [DecidableEq β] [DecidableEq γ]
    (v : Option β) (w : Option γ) (f : Record → Option β) (g : Record → Option γ)
    (l : List Record) :
    applyFilter v f (applyFilter w g l) = applyFilter w g (applyFilter v f l) := by
  cases v with
  | none => rfl
  | some x =>
    cases w with
    | none => rfl
    | some y => exact filter_swap _ _ l

end FilterLemmas

/-- C1: for every dataset and filter selection the filtered view is a
subsequence of the dataset (only original rows, in original relative
order), and with all four selections at "All" it equals the dataset. -/
theorem filtered_view_sublist_and_all_eq (df : List Record) (sel : Selection) :
    (filtered_df sel df).Sublist df ∧ filtered_df allSelection df = df := by
  constructor
  · exact ((applyFilter_sublist _ _ _).trans
      ((applyFilter_sublist _ _ _).trans
        ((applyFilter_sublist _ _ _).trans (applyFilter_sublist _ _ _))))
  · rfl

/-- C2: the four filters compose conjunctively: the one-pass filtered view
equals the sequential composition of the four single-dimension filters;
in particular filtering by state and year at once equals filtering by
state and then by year; and every pair of the four single-dimension
filter steps commutes. -/
theorem filters_compose_conjunctively (df : List Record)
    (s : Option String) (y : Option Int) (m : Option String) (t : Option String) :
    filtered_df ⟨s, y, m, t⟩ df
        = applyIncident t (applyMonth m (applyYear y (applyState s df)))
      ∧ filtered_df ⟨s, y, none, none⟩ df = applyYear y (applyState s df)
      ∧ applyYear y (applyState s df) = applyState s (applyYear y df)
      ∧ applyMonth m (applyState s df) = applyState s (applyMonth m df)
      ∧ applyIncident t (applyState s df) = applyState s (applyIncident t df)
      ∧ applyMonth m (applyYear y df) = applyYear y (applyMonth m df)
      ∧ applyIncident t (applyYear y df) = applyYear y (applyIncident t df)
      ∧ applyIncident t (applyMonth m df) = applyMonth m (applyIncident t df) := by
  refine ⟨rfl, rfl, ?_, ?_, ?_, ?_, ?_, ?_⟩ <;> exact applyFilter_comm _ _ _ _ df

/-- Lexicographic comparison of character lists by code point; this is the
order Python's sorted() uses on strings. -/
def lexLeB : List Char → List Char → Bool
  | [], _ => true
  | _ :: _, [] => false
  | a :: s, b :: t =>
    if a.toNat < b.toNat then true
    else if b.toNat < a.toNat then false
    else lexLeB s t

/-- Lexicographic order on strings, as a proposition. -/
def strLe (a b : String) : Prop := lexLeB a.data b.data = true

instance : DecidableRel strLe := fun _ _ => Bool.decEq _ _

lemma lexLeB_cons_iff (a b : Char) (s t : List Char) :
    lexLeB (a :: s) (b :: t) = true
      ↔ a.toNat < b.toNat ∨ (a.toNat = b.toNat ∧ lexLeB s t = true) := by
  rcases Nat.lt_trichotomy a.toNat b.toNat with h | h | h
  · simp [lexLeB, h]
  · simp [lexLeB, h, Nat.lt_irrefl]
  · simp [lexLeB, h, Nat.lt_asymm h, Nat.ne_of_gt h]

lemma lexLeB_total : ∀ s t : List Char, lexLeB s t = true ∨ lexLeB t s = true
  | [], _ => Or.inl rfl
  | _ :: _, [] => Or.inr rfl
  | a :: s, b :: t => by
    rcases Nat.lt_trichotomy a.toNat b.toNat with h | h | h
    · left; simp [lexLeB_cons_iff, h]
    · rcases lexLeB_total s t with ht | ht
      · left; simp [lexLeB_cons_iff, h, ht]
      · right; simp [lexLeB_cons_iff, h.symm, ht]
    · right; simp [lexLeB_cons_iff, h]

lemma lexLeB_trans : ∀ s t u : List Char,
    lexLeB s t = true → lexLeB t u = true → lexLeB s u = true
  | [], _, _, _, _ => rfl
  | _ :: _, [], _, h1, _ => by simp [lexLeB] at h1
  | _ :: _, _ :: _, [], _, h2 => by simp [lexLeB] at h2
  | a :: s, b :: t, c :: u, h1, h2 => by
    rw [lexLeB_cons_iff] at h1 h2 ⊢
    rcases h1 with hab | ⟨hab, hst⟩
    · rcases h2 with hbc | ⟨hbc, _⟩
      · exact Or.inl (Nat.lt_trans hab hbc)
      · exact Or.inl (hbc ▸ hab)
    · rcases h2 with hbc | ⟨hbc, htu⟩
      · exact Or.inl (hab ▸ hbc)
      · exact Or.inr ⟨hab.trans hbc, lexLeB_trans s t u hst htu⟩

instance : IsTotal String strLe := ⟨fun a b => lexLeB_total a.data b.data⟩

instance : IsTrans String strLe := ⟨fun a b c => lexLeB_trans a.data b.data c.data⟩

/-- Model of pandas Series.unique(): the distinct values in first-seen
order; missing (NaN) entries are kept, as unique() keeps NaN. -/
def uniqueFirstAux {α : Type} [DecidableEq α] (seen : List α) : List α → List α
  | [] => []
  | a :: l => if a ∈ seen then uniqueFirstAux seen l else a :: uniqueFirstAux (a :: seen) l

/-- Distinct values of a list in first-seen order. -/
def uniqueFirst {α : Type} [DecidableEq α] (l : List α) : List α := uniqueFirstAux [] l

lemma mem_uniqueFirstAux {α : Type} [DecidableEq α] (x : α) :
    ∀ (l seen : List α), x ∈ uniqueFirstAux seen l ↔ x ∈ l ∧ x ∉ seen
  | [], seen => by simp [uniqueFirstAux]
  | a :: l, seen => by
    by_cases ha : a ∈ seen
    · rw [uniqueFirstAux, if_pos ha, mem_uniqueFirstAux x l seen]
      constructor
      · exact fun ⟨h1, h2⟩ => ⟨List.mem_cons_of_mem a h1, h2⟩
      · rintro ⟨h1, h2⟩
        rcases List.mem_cons.mp h1 with rfl | h1
        · exact absurd ha h2
        · exact ⟨h1, h2⟩
    · rw [uniqueFirstAux, if_neg ha]
      constructor
      · intro h
        rcases List.mem_cons.mp h with rfl | h
        · exact ⟨List.mem_cons_self x l, ha⟩
        · rcases (mem_uniqueFirstAux x l (a :: seen)).mp h with ⟨h1, h2⟩
          exact ⟨List.mem_cons_of_mem a h1,
            fun hx => h2 (List.mem_cons_of_mem a hx)⟩
      · rintro ⟨h1, h2⟩
        rcases List.mem_cons.mp h1 with rfl | h1
        · exact List.mem_cons_self x _
        · by_cases hxa : x = a
          · exact hxa ▸ List.mem_cons_self a _
          · exact List.mem_cons_of_mem a ((mem_uniqueFirstAux x l (a :: seen)).mpr
              ⟨h1, by simp [List.mem_cons, hxa, h2]⟩)

lemma mem_uniqueFirst {α : Type} [DecidableEq α] (x : α) (l : List α) :
    x ∈ uniqueFirst l ↔ x ∈ l := by
  rw [uniqueFirst, mem_uniqueFirstAux]
  simp

lemma nodup_uniqueFirstAux {α : Type} [DecidableEq α] :
    ∀ (l seen : List α), (uniqueFirstAux seen l).Nodup
  | [], seen => List.nodup_nil
  | a :: l, seen => by
    by_cases ha : a ∈ seen
    · rw [uniqueFirstAux, if_pos ha]
      exact nodup_uniqueFirstAux l seen
    · rw [uniqueFirstAux, if_neg ha]
      refine List.nodup_cons.mpr ⟨?_, nodup_uniqueFirstAux l (a :: seen)⟩
      intro hmem
      exact ((mem_uniqueFirstAux a l (a :: seen)).mp hmem).2 (List.mem_cons_self a seen)

lemma nodup_uniqueFirst {α : Type} [DecidableEq α] (l : List α) : (uniqueFirst l).Nodup :=
  nodup_uniqueFirstAux l []

lemma sublist_uniqueFirstAux {α : Type} [DecidableEq α] :
    ∀ (l seen : List α), (uniqueFirstAux seen l).Sublist l
  | [], _ => List.Sublist.refl []
  | a :: l, seen => by
    by_cases ha : a ∈ seen
    · rw [uniqueFirstAux, if_pos ha]
      exact (sublist_uniqueFirstAux l seen).cons a
    · rw [uniqueFirstAux, if_neg ha]
      exact (sublist_uniqueFirstAux l (a :: seen)).cons₂ a

lemma sublist_uniqueFirst {α : Type} [DecidableEq α] (l : List α) :
    (uniqueFirst l).Sublist l :=
  sublist_uniqueFirstAux l []

/-- Keys of a pandas groupby on an Option-valued column: the distinct
non-null values, sorted ascending (groupby sorts group keys by default
and drops NaN keys). -/
def sortedKeys (key : Record → Option String) (l : List Record) : List String :=
  List.insertionSort strLe (uniqueFirst (l.filterMap key))

/-- Generic groupby-and-reduce on a string column: one (key, aggregate)
pair per distinct non-null key, the aggregate summing the weight w over
the rows of that group. -/
def groupAgg (key : Record → Option String) (w : Record → Nat) (l : List Record) :
    List (String × Nat) :=
  (sortedKeys key l).map (fun k => (k, ((l.filter (fun r => key r == some k)).map w).sum))

/-- Descending order on the aggregate column, as sort_values uses
(ascending=False compares only the value). -/
def deathsDescRel (a b : String × Nat) : Prop := b.2 ≤ a.2

instance : DecidableRel deathsDescRel := fun a b => Nat.decLe b.2 a.2

instance : IsTotal (String × Nat) deathsDescRel := ⟨fun a b => le_total b.2 a.2⟩

instance : IsTrans (String × Nat) deathsDescRel := ⟨fun _ _ _ h1 h2 => le_trans h2 h1⟩

/-- fatalities_by_state (lines 77-80): group the filtered view by States,
sum Number of deaths per group, sort by the sums descending. -/
def fatalities_by_state (l : List Record) : List (String × Nat) :=
  List.insertionSort deathsDescRel (groupAgg (fun r => r.states) (fun r => r.deaths) l)

/-- incidents_by_type (lines 99-102): group the filtered view by
Incident_Type and count the Identifier cells per group; Identifier is a
total per-row key, so the count is the group size. -/
def incidents_by_type (l : List Record) : List (String × Nat) :=
  groupAgg (fun r => r.incidentType) (fun _ => 1) l

/-- month_order (line 34): first-seen distinct values of the full Month_Name
column, with no dropna: a missing cell appears as none. -/
def month_order (df : List Record) : List (Option String) :=
  uniqueFirst (df.map (fun r => r.monthName))

/-- Reindex lookup: the count a reindexed label receives from the grouped
counts g; a label absent from the keys of g (in particular the NaN label,
which groupby always drops) gets NaN (none), which is what pandas reindex
inserts for a missing label. -/
def reindexCount (g : List (String × Nat)) : Option String → Option Nat
  | none => none
  | some s => g.lookup s

/-- monthly_trend (lines 117-120): count rows of the filtered view per
non-null Month_Name, then reindex onto month_order of the full dataset. -/
def monthly_trend (df : List Record) (sel : Selection) : List (Option String × Option Nat) :=
  (month_order df).map (fun m =>
    (m, reindexCount (groupAgg (fun r => r.monthName) (fun _ => 1) (filtered_df sel df)) m))

/-- One entry of a dropdown option list: the sentinel, a NaN entry (only
the month list can contain one), a string value, or an integer value
(the Year column is integer-typed). -/
inductive Choice where
  | all : Choice
  | missingVal : Choice
  | strVal : String → Choice
  | intVal : Int → Choice
deriving DecidableEq

/-- The distinct non-null States values of the full dataset, sorted. -/
def sortedStates (df : List Record) : List String :=
  List.insertionSort strLe (uniqueFirst (df.filterMap (fun r => r.states)))

/-- state_options (line 26): the sentinel, then sorted distinct non-null
States values. -/
def state_options (df : List Record) : List Choice :=
  Choice.all :: (sortedStates df).map Choice.strVal

/-- The distinct non-null Year values of the full dataset, sorted. -/
def sortedYears (df : List Record) : List Int :=
  List.insertionSort (· ≤ ·) (uniqueFirst (df.filterMap (fun r => r.year)))

/-- year_options (line 30): the sentinel, then sorted distinct non-null
Year values. -/
def year_options (df : List Record) : List Choice :=
  Choice.all :: (sortedYears df).map Choice.intVal

/-- month_options (line 35): the sentinel, then month_order verbatim, a
missing cell from the full dataset included (no dropna on line 34). -/
def month_options (df : List Record) : List Choice :=
  Choice.all :: (month_order df).map (fun m =>
    match m with
    | none => Choice.missingVal
    | some s => Choice.strVal s)

/-- The distinct non-null Incident_Type values of the full dataset, sorted. -/
def sortedIncidents (df : List Record) : List String :=
  List.insertionSort strLe (uniqueFirst (df.filterMap (fun r => r.incidentType)))

/-- incident_options (line 39): the sentinel, then sorted distinct non-null
Incident_Type values. -/
def incident_options (df : List Record) : List Choice :=
  Choice.all :: (sortedIncidents df).map Choice.strVal

section GroupSum

lemma sum_filter_groups (key : Record → Option String) (w : Record → Nat) :
    ∀ (ks : List String) (l : List Record), ks.Nodup →
      (∀ r ∈ l, ∃ k ∈ ks, key r = some k) →
      (ks.map (fun k => ((l.filter (fun r => key r == some k)).map w).sum)).sum
        = (l.map w).sum
  | [], l, _, hcov => by
    cases l with
    | nil => rfl
    | cons r l =>
      rcases hcov r (List.mem_cons_self r l) with ⟨k, hk, _⟩
      exact absurd hk (List.not_mem_nil k)
  | k :: ks, l, hnd, hcov => by
    have hknot : k ∉ ks := (List.nodup_cons.mp hnd).1
    have hndks : ks.Nodup := (List.nodup_cons.mp hnd).2
    set p : Record → Bool := fun r => key r == some k with hp
    set l2 : List Record := l.filter (fun r => !(p r)) with hl2
    have hgroups : ∀ k' ∈ ks,
        l.filter (fun r => key r == some k') = l2.filter (fun r => key r == some k') := by
      intro k' hk'
      rw [hl2, List.filter_filter]
      refine (List.filter_congr ?_).symm
      intro r _
      by_cases hq : key r = some k'
      · have hpr : p r = false := by
          rw [hp]
          simp only [beq_eq_false_iff_ne, ne_eq]
          rw [hq]
          intro hcontra
          exact hknot ((Option.some.injEq k' k).mp hcontra ▸ hk')
        simp [hq, hpr]
      · have : (key r == some k') = false := beq_eq_false_iff_ne.mpr hq
        simp [this]
    have hsplit : ((l.filter p).map w).sum + (l2.map w).sum = (l.map w).sum := by
      have hperm := (List.filter_append_perm p l).map w
      rw [List.map_append] at hperm
      rw [← hperm.sum_eq, List.sum_append]
    have hcov2 : ∀ r ∈ l2, ∃ k' ∈ ks, key r = some k' := by
      intro r hr
      have hrl : r ∈ l := (List.mem_filter.mp hr).1
      have hrp : ¬ p r = true := by
        have := (List.mem_filter.mp hr).2
        simp only [Bool.not_eq_true'] at this
        simp [this]
      rcases hcov r hrl with ⟨k'', hk'', hkey⟩
      rcases List.mem_cons.mp hk'' with rfl | hmem
      · exact absurd (by rw [hp]; simp [hkey]) hrp
      · exact ⟨k'', hmem, hkey⟩
    have ih := sum_filter_groups key w ks l2 hndks hcov2
    calc ((k :: ks).map
            (fun k => ((l.filter (fun r => key r == some k)).map w).sum)).sum
        = ((l.filter p).map w).sum
            + (ks.map (fun k => ((l.filter (fun r => key r == some k)).map w).sum)).sum := by
          rw [List.map_cons, List.sum_cons]
      _ = ((l.filter p).map w).sum
            + (ks.map (fun k => ((l2.filter (fun r => key r == some k)).map w).sum)).sum := by
          have hmc : (ks.map (fun k => ((l.filter (fun r => key r == some k)).map w).sum))
              = ks.map (fun k => ((l2.filter (fun r => key r == some k)).map w).sum) :=
            List.map_congr_left (fun k' hk' => by rw [hgroups k' hk'])
          rw [hmc]
      _ = ((l.filter p).map w).sum + (l2.map w).sum := by rw [ih]
      _ = (l.map w).sum := hsplit

lemma groupAgg_snd_sum (key : Record → Option String) (w : Record → Nat)
    (l : List Record) (h : ∀ r ∈ l, (key r).isSome) :
    ((groupAgg key w l).map Prod.snd).sum = (l.map w).sum := by
  have hmap : (groupAgg key w l).map Prod.snd
      = (sortedKeys key l).map (fun k => ((l.filter (fun r => key r == some k)).map w).sum) := by
    rw [groupAgg, List.map_map]
    rfl
  rw [hmap]
  have hperm : (sortedKeys key l).Perm (uniqueFirst (l.filterMap key)) :=
    List.perm_insertionSort strLe _
  rw [(hperm.map _).sum_eq]
  refine sum_filter_groups key w _ l (nodup_uniqueFirst _) ?_
  intro r hr
  rcases Option.isSome_iff_exists.mp (h r hr) with ⟨k, hk⟩
  refine ⟨k, ?_, hk⟩
  rw [mem_uniqueFirst]
  exact List.mem_filterMap.mpr ⟨r, hr, hk⟩

lemma sum_map_one (l : List Record) : (l.map (fun _ => (1 : Nat))).sum = l.length := by
  induction l with
  | nil => rfl
  | cons a l ih => simp [ih, Nat.add_comm]

end GroupSum

/-- C3: for every dataset and filter selection whose filtered view has no
missing States cell, the per-state death sums of the group-by-state
projection add up to the scalar total-deaths metric of the same view. -/
theorem per_state_sums_match_total (df : List Record) (sel : Selection)
    (h : ∀ r ∈ filtered_df sel df, (r.states).isSome) :
    ((fatalities_by_state (filtered_df sel df)).map Prod.snd).sum
      = total_deaths (filtered_df sel df) := by
  rw [fatalities_by_state,
    ((List.perm_insertionSort deathsDescRel _).map Prod.snd).sum_eq]
  exact groupAgg_snd_sum _ _ _ h

/-- Concrete instantiation of per_state_sums_match_total on a one-row
dataset with the all-"All" selection. -/
theorem per_state_sums_match_total_witness :
    ((fatalities_by_state (filtered_df allSelection
        [⟨some "Abia", some 2022, some "January", some "Flood", "1", 5, 2⟩])).map Prod.snd).sum
      = total_deaths (filtered_df allSelection
        [⟨some "Abia", some 2022, some "January", some "Flood", "1", 5, 2⟩]) :=
  per_state_sums_match_total
    [⟨some "Abia", some 2022, some "January", some "Flood", "1", 5, 2⟩]
    allSelection (by decide)

/-- C4: for every dataset and filter selection whose filtered view has no
missing Incident_Type cell, the per-type counts of the group-by-type
projection add up to the row count of the same view. -/
theorem per_type_counts_match_total (df : List Record) (sel : Selection)
    (h : ∀ r ∈ filtered_df sel df, (r.incidentType).isSome) :
    ((incidents_by_type (filtered_df sel df)).map Prod.snd).sum
      = total_incidents (filtered_df sel df) := by
  rw [incidents_by_type, groupAgg_snd_sum _ _ _ h]
  exact sum_map_one _

/-- Concrete instantiation of per_type_counts_match_total on a one-row
dataset with the all-"All" selection. -/
theorem per_type_counts_match_total_witness :
    ((incidents_by_type (filtered_df allSelection
        [⟨some "Abia", some 2022, some "January", some "Flood", "2", 5, 2⟩])).map Prod.snd).sum
      = total_incidents (filtered_df allSelection
        [⟨some "Abia", some 2022, some "January", some "Flood", "2", 5, 2⟩]) :=
  per_type_counts_match_total
    [⟨some "Abia", some 2022, some "January", some "Flood", "2", 5, 2⟩]
    allSelection (by decide)

/-- C5: whenever the filtered view is empty, the scalar metrics are
total_incidents = 0, total_deaths = 0 and an undefined (NaN) avg_duration;
all three are total functions, so computing them raises no error. -/
theorem empty_view_metrics (df : List Record) (sel : Selection)
    (h : filtered_df sel df = []) :
    total_incidents (filtered_df sel df) = 0
      ∧ total_deaths (filtered_df sel df) = 0
      ∧ avg_duration (filtered_df sel df) = none := by
  rw [h]
  exact ⟨rfl, rfl, rfl⟩

/-- Concrete instantiation of empty_view_metrics: a one-row dataset whose
row does not match the selected state. -/
theorem empty_view_metrics_witness :
    total_incidents (filtered_df ⟨some "Zamfara", none, none, none⟩
        [⟨some "Abia", some 2022, some "January", some "Flood", "1", 5, 2⟩]) = 0
      ∧ total_deaths (filtered_df ⟨some "Zamfara", none, none, none⟩
        [⟨some "Abia", some 2022, some "January", some "Flood", "1", 5, 2⟩]) = 0
      ∧ avg_duration (filtered_df ⟨some "Zamfara", none, none, none⟩
        [⟨some "Abia", some 2022, some "January", some "Flood", "1", 5, 2⟩]) = none :=
  empty_view_metrics
    [⟨some "Abia", some 2022, some "January", some "Flood", "1", 5, 2⟩]
    ⟨some "Zamfara", none, none, none⟩ (by decide)

/-- Tie discipline of the descending sort: a pair with equal aggregates is
in strictly ascending key order. -/
def tieAsc (x y : String × Nat) : Prop := x.2 = y.2 → strLe x.1 y.1 ∧ x.1 ≠ y.1

lemma orderedInsert_pairwise_tieAsc (a : String × Nat) (m : List (String × Nat))
    (hm : m.Pairwise tieAsc) (ha : ∀ y ∈ m, tieAsc a y) :
    (m.orderedInsert deathsDescRel a).Pairwise tieAsc := by
  induction m with
  | nil => exact List.pairwise_singleton tieAsc a
  | cons y m ih =>
    rw [List.orderedInsert]
    split_ifs with hr
    · exact List.pairwise_cons.mpr ⟨ha, hm⟩
    · have hm2 := (List.pairwise_cons.mp hm).2
      have hy := (List.pairwise_cons.mp hm).1
      refine List.pairwise_cons.mpr ⟨?_, ih hm2 (fun z hz => ha z (List.mem_cons_of_mem y hz))⟩
      intro w hw
      rcases (List.mem_orderedInsert deathsDescRel).mp hw with hwa | hwm
      · rw [hwa]
        intro heq
        have hlt : a.2 < y.2 := Nat.lt_of_not_le hr
        exact absurd heq.symm (Nat.ne_of_lt hlt)
      · exact hy w hwm

lemma insertionSort_pairwise_tieAsc (l : List (String × Nat)) (h : l.Pairwise tieAsc) :
    (List.insertionSort deathsDescRel l).Pairwise tieAsc := by
  induction l with
  | nil => exact List.Pairwise.nil
  | cons a l ih =>
    rw [List.insertionSort]
    refine orderedInsert_pairwise_tieAsc a _ (ih (List.pairwise_cons.mp h).2) ?_
    intro y hy
    exact (List.pairwise_cons.mp h).1 y
      ((List.perm_insertionSort deathsDescRel l).mem_iff.mp hy)

lemma groupAgg_pairwise_tieAsc (key : Record → Option String) (w : Record → Nat)
    (l : List Record) : (groupAgg key w l).Pairwise tieAsc := by
  have hsorted : (sortedKeys key l).Sorted strLe :=
    List.sorted_insertionSort strLe _
  have hnd : (sortedKeys key l).Nodup :=
    (List.perm_insertionSort strLe _).nodup_iff.mpr (nodup_uniqueFirst _)
  have hkeys : (sortedKeys key l).Pairwise (fun k1 k2 => strLe k1 k2 ∧ k1 ≠ k2) :=
    hsorted.and hnd
  rw [groupAgg]
  refine List.pairwise_map.mpr (hkeys.imp ?_)
  intro k1 k2 h
  exact fun _ => h

/-- C6 amended: the group-by-state projection is sorted descending by the
death sums, and two entries with equal sums appear in ascending
lexicographic order of the state name (the sorted order in which groupby
forms the groups), not in encounter order. -/
theorem fatalities_sorted_desc_ties_lex (df : List Record) (sel : Selection) :
    (fatalities_by_state (filtered_df sel df)).Pairwise
      (fun a b => deathsDescRel a b ∧ tieAsc a b) := by
  have hs : (fatalities_by_state (filtered_df sel df)).Pairwise deathsDescRel :=
    List.sorted_insertionSort deathsDescRel _
  have ht : (fatalities_by_state (filtered_df sel df)).Pairwise tieAsc :=
    insertionSort_pairwise_tieAsc _ (groupAgg_pairwise_tieAsc _ _ _)
  exact hs.and ht

/-- Two-row dataset whose state groups are first encountered in the order
StateB, StateA and have equal death sums. -/
def d6 : List Record :=
  [⟨some "StateB", some 2022, some "January", some "Flood", "1", 5, 2⟩,
   ⟨some "StateA", some 2023, some "February", some "Fire", "2", 5, 1⟩]

/-- C6 counterexample: on d6 with no filter active, both state groups sum
to 5 and the groups are encountered in the order StateB, StateA, yet the
projection lists StateA first — the tie is broken by sorted key order,
not by insertion/encounter order as the claim states. -/
theorem fatalities_tie_breaks_not_encounter :
    fatalities_by_state (filtered_df allSelection d6) = [("StateA", 5), ("StateB", 5)]
      ∧ uniqueFirst ((filtered_df allSelection d6).filterMap (fun r => r.states))
          = ["StateB", "StateA"] := by
  exact ⟨by decide, by decide⟩

lemma lookup_eq_none_of_keys_ne (s : String) :
    ∀ g : List (String × Nat), (∀ p ∈ g, p.1 ≠ s) → g.lookup s = none
  | [], _ => rfl
  | (k, v) :: g, h => by
    have hk : (s == k) = false :=
      beq_eq_false_iff_ne.mpr (Ne.symm (h (k, v) (List.mem_cons_self _ _)))
    have ih := lookup_eq_none_of_keys_ne s g (fun p hp => h p (List.mem_cons_of_mem _ hp))
    simp [List.lookup, hk, ih]

lemma map_fst_pairing {A B : Type} (f : A -> B) (l : List A) :
    (l.map (fun x => (x, f x))).map Prod.fst = l := by
  induction l with
  | nil => rfl
  | cons a l ih => simp [ih]

/-- C7 amended: the group-by-month counts are reindexed onto the month
order derived from the full dataset, whose label column the projection
reproduces exactly; a month present in the full dataset but absent from
the filtered view appears in the projection with an undefined (NaN)
count — it is neither reported as 0 nor dropped. -/
theorem monthly_trend_reindexed_nan (df : List Record) (sel : Selection) (m : String)
    (hin : some m ∈ df.map (fun r => r.monthName))
    (habs : ∀ r ∈ filtered_df sel df, r.monthName ≠ some m) :
    (some m, (none : Option Nat)) ∈ monthly_trend df sel
      ∧ (monthly_trend df sel).map Prod.fst = month_order df := by
  constructor
  · have hmo : (some m) ∈ month_order df := (mem_uniqueFirst _ _).mpr hin
    refine List.mem_map.mpr ⟨some m, hmo, ?_⟩
    show (some m,
      reindexCount (groupAgg (fun r => r.monthName) (fun _ => 1) (filtered_df sel df)) (some m))
        = (some m, (none : Option Nat))
    rw [reindexCount]
    have hnone : (groupAgg (fun r => r.monthName) (fun _ => 1)
        (filtered_df sel df)).lookup m = none := by
      apply lookup_eq_none_of_keys_ne
      intro p hp
      rcases List.mem_map.mp hp with ⟨k, hk, hpk⟩
      have hk2 : k ∈ uniqueFirst ((filtered_df sel df).filterMap (fun r => r.monthName)) :=
        (List.perm_insertionSort strLe _).mem_iff.mp hk
      rw [mem_uniqueFirst] at hk2
      rcases List.mem_filterMap.mp hk2 with ⟨r, hr, hrm⟩
      intro hps
      rw [← hpk] at hps
      exact habs r hr (by rw [hrm]; exact congrArg some hps)
    rw [hnone]
  · rw [monthly_trend]
    exact map_fst_pairing _ _

/-- Two-row dataset with months January and February, used for the C7
counterexample and witness. -/
def d7 : List Record :=
  [⟨some "Abia", some 2022, some "January", some "Flood", "1", 0, 1⟩,
   ⟨some "Imo", some 2022, some "February", some "Fire", "2", 0, 1⟩]

/-- The selection that keeps only February rows. -/
def sel7 : Selection := ⟨none, none, some "February", none⟩

/-- C7 counterexample: January occurs in the full dataset d7 and not in
the filtered view (month filter = February), and the projection carries
the pair (January, NaN): the January row is present but its count is
neither 0 nor dropped, against the two behaviours the claim allows. -/
theorem monthly_trend_absent_month_not_zero_nor_dropped :
    d7.map (fun r => r.monthName) = [some "January", some "February"]
      ∧ (filtered_df sel7 d7).map (fun r => r.monthName) = [some "February"]
      ∧ monthly_trend d7 sel7 = [(some "January", none), (some "February", some 1)] := by
  exact ⟨by decide, by decide, by decide⟩

/-- Concrete instantiation of monthly_trend_reindexed_nan on d7 with the
February-only selection and the absent month January. -/
theorem monthly_trend_reindexed_nan_witness :
    (some "January", (none : Option Nat)) ∈ monthly_trend d7 sel7
      ∧ (monthly_trend d7 sel7).map Prod.fst = month_order d7 :=
  monthly_trend_reindexed_nan d7 sel7 "January" (by decide) (by decide)

/-- C8: each dropdown option list is the "All" sentinel followed by the
distinct values present in the full dataset: for state and incident type
the distinct non-missing values in ascending lexicographic order, for
year the distinct non-missing values in ascending order, and for month
the distinct column entries in first-seen order. -/
theorem dropdown_options_spec (df : List Record) :
    state_options df = Choice.all :: (sortedStates df).map Choice.strVal
      ∧ (sortedStates df).Sorted strLe
      ∧ (sortedStates df).Nodup
      ∧ (∀ s : String, s ∈ sortedStates df ↔ some s ∈ df.map (fun r => r.states))
      ∧ year_options df = Choice.all :: (sortedYears df).map Choice.intVal
      ∧ (sortedYears df).Sorted (· ≤ ·)
      ∧ (sortedYears df).Nodup
      ∧ (∀ y : Int, y ∈ sortedYears df ↔ some y ∈ df.map (fun r => r.year))
      ∧ incident_options df = Choice.all :: (sortedIncidents df).map Choice.strVal
      ∧ (sortedIncidents df).Sorted strLe
      ∧ (sortedIncidents df).Nodup
      ∧ (∀ t : String, t ∈ sortedIncidents df ↔ some t ∈ df.map (fun r => r.incidentType))
      ∧ month_options df = Choice.all :: (month_order df).map (fun m =>
          match m with
          | none => Choice.missingVal
          | some s => Choice.strVal s)
      ∧ (month_order df).Nodup
      ∧ (month_order df).Sublist (df.map (fun r => r.monthName))
      ∧ (∀ m : Option String, m ∈ month_order df ↔ m ∈ df.map (fun r => r.monthName)) := by
  refine ⟨rfl, List.sorted_insertionSort strLe _,
    (List.perm_insertionSort strLe _).nodup_iff.mpr (nodup_uniqueFirst _), ?_,
    rfl, List.sorted_insertionSort _ _,
    (List.perm_insertionSort _ _).nodup_iff.mpr (nodup_uniqueFirst _), ?_,
    rfl, List.sorted_insertionSort strLe _,
    (List.perm_insertionSort strLe _).nodup_iff.mpr (nodup_uniqueFirst _), ?_,
    rfl, nodup_uniqueFirst _, sublist_uniqueFirst _, ?_⟩
  · intro s
    rw [sortedStates, (List.perm_insertionSort strLe _).mem_iff, mem_uniqueFirst]
    simp [List.mem_filterMap, List.mem_map]
  · intro y
    rw [sortedYears, (List.perm_insertionSort _ _).mem_iff, mem_uniqueFirst]
    simp [List.mem_filterMap, List.mem_map]
  · intro t
    rw [sortedIncidents, (List.perm_insertionSort strLe _).mem_iff, mem_uniqueFirst]
    simp [List.mem_filterMap, List.mem_map]
  · intro m
    rw [month_order, mem_uniqueFirst]

/-- The three-record scenario dataset of the spec. -/
def d9 : List Record :=
  [⟨some "StateA", some 2022, some "January", some "Flood", "1", 5, 2⟩,
   ⟨some "StateA", some 2023, some "February", some "Fire", "2", 0, 1⟩,
   ⟨some "StateB", some 2022, some "January", some "Flood", "3", 10, 3⟩]

/-- C9: on the three-record scenario, filtering State=StateA gives 2
records with total deaths 5 and average duration 1.5; filtering
State=StateA and Year=2023 gives exactly the Fire record; and the
unfiltered group-by-state projection ranks StateB (10) above StateA (5). -/
theorem scenario_three_records :
    total_incidents (filtered_df ⟨some "StateA", none, none, none⟩ d9) = 2
      ∧ total_deaths (filtered_df ⟨some "StateA", none, none, none⟩ d9) = 5
      ∧ avg_duration (filtered_df ⟨some "StateA", none, none, none⟩ d9) = some (3 / 2)
      ∧ filtered_df ⟨some "StateA", some 2023, none, none⟩ d9
          = [⟨some "StateA", some 2023, some "February", some "Fire", "2", 0, 1⟩]
      ∧ fatalities_by_state (filtered_df allSelection d9)
          = [("StateB", 10), ("StateA", 5)] := by
  refine ⟨by decide, by decide, ?_, by decide, by decide⟩
  have hf : filtered_df ⟨some "StateA", none, none, none⟩ d9
      = [⟨some "StateA", some 2022, some "January", some "Flood", "1", 5, 2⟩,
         ⟨some "StateA", some 2023, some "February", some "Fire", "2", 0, 1⟩] := by decide
  rw [hf]
  simp [avg_duration]
  norm_num

/-- C10: whenever the full dataset has a row with a missing Month_Name,
the month dropdown list contains the missing entry, while the state, year
and incident-type dropdown lists never contain one: the month list is the
only one of the four built without dropping missing cells. -/
theorem month_dropdown_keeps_missing (df : List Record)
    (h : (none : Option String) ∈ df.map (fun r => r.monthName)) :
    Choice.missingVal ∈ month_options df
      ∧ Choice.missingVal ∉ state_options df
      ∧ Choice.missingVal ∉ year_options df
      ∧ Choice.missingVal ∉ incident_options df := by
  refine ⟨?_, ?_, ?_, ?_⟩
  · rw [month_options]
    exact List.mem_cons_of_mem _
      (List.mem_map.mpr ⟨none, (mem_uniqueFirst _ _).mpr h, rfl⟩)
  · simp [state_options, List.mem_map]
  · simp [year_options, List.mem_map]
  · simp [incident_options, List.mem_map]

/-- One-row dataset whose single row has a missing Month_Name cell. -/
def d10 : List Record := [⟨some "Abia", some 2022, none, some "Flood", "1", 0, 1⟩]

/-- Concrete instantiation of month_dropdown_keeps_missing on d10. -/
theorem month_dropdown_keeps_missing_witness :
    Choice.missingVal ∈ month_options d10
      ∧ Choice.missingVal ∉ state_options d10
      ∧ Choice.missingVal ∉ year_options d10
      ∧ Choice.missingVal ∉ incident_options d10 :=
  month_dropdown_keeps_missing d10 (by decide)
